import Mathlib

/-!
Verification of `PosesTracker` (src/src/ml/pose/PosesTracker.js).

Shallow embedding of the pose-tracking registry and its geometry helpers.
The registry logic (`PosesTracker.seen`, the expiry scan, the enumeration
views) is translated directly from `PosesTracker.js`.  The delegate type
`PoseTracker`, the input type `Types.Pose` and the geometry collaborators
(`Coco.getKeypoint`, `Lines.interpolate`, `Points.sum`, `Points.divide`)
are repository code that is not available here; they are modelled from the
specification, as marked on each definition.

JavaScript particulars that matter to the claims are modelled explicitly:
* `undefined` vs `null` arguments (the `from` parameter is a `JSVal`);
* string coercion `null + "-" + id = "null-" + id`;
* JS `Map` semantics: insertion order, `set` on an existing key keeps its
  position (association list with in-place replacement);
* generator functions: the body does not run until the first `next()`
  call (the `SnapshotGen` type below).
Numbers in poses are modelled as rationals (exact arithmetic).
Time is an explicit `now : Nat` parameter (milliseconds); `elapsed` is
computed against it.
-/

/-- A 2-D point with exact (rational) coordinates. -/
structure Point where
  x : ℚ
  y : ℚ
deriving DecidableEq, Repr

/-- A line segment between two points (the shape returned by `lineBetween`). -/
structure Line where
  a : Point
  b : Point
deriving DecidableEq, Repr

/-- Modelled from the spec: `Types.Pose` (src/src/ml/lib/Types.js is not
under src/): "an identified set of named keypoints for one detected body in
one frame. Fields consumed: `id` (detector-local identifier, may be
absent/defaulting to 0)", plus named keypoints.  The identifier is a string
(the spec allows "pathological identifiers containing the separator", so it
is not restricted to digits); keypoints are an association list from
keypoint name to point. -/
structure Pose where
  id : Option String
  keypoints : List (String × Point)
deriving DecidableEq, Repr

/-- The detector-local pose id as computed by `seen`:
`(pose.id ?? 0).toString()`. -/
def Pose.poseIdOf (p : Pose) : String :=
  p.id.getD "0"

/-- A JavaScript value in an argument position that the code tests with
`=== undefined`: it can be `undefined`, `null`, or a proper string. -/
inductive JSVal where
  | undef : JSVal
  | null : JSVal
  | str : String → JSVal
deriving DecidableEq, Repr

/-- JavaScript string coercion as used in `from + "-" + id`:
`null` coerces to `"null"`, `undefined` to `"undefined"`. -/
def JSVal.jsToString : JSVal → String
  | .undef => "undefined"
  | .null => "null"
  | .str s => s

/-- Modelled from the spec: `Coco.getKeypoint(pose, name)`
(src/src/ml/lib/Coco.js is not under src/): "external keypoint lookup by
name is a collaborator capability"; returns the keypoint if present, else
absent. -/
def getKeypoint (p : Pose) (name : String) : Option Point :=
  p.keypoints.lookup name

/-- Modelled from the spec: `Lines.interpolate(amt, line)` (ixfx geometry,
not under src/): linear interpolation along a segment; at `amt = 0.5` it
"computes each midpoint". -/
def interpolate (amt : ℚ) (l : Line) : Point :=
  { x := l.a.x + (l.b.x - l.a.x) * amt
    y := l.a.y + (l.b.y - l.a.y) * amt }

/-- Modelled from the spec: `Points.sum` (ixfx geometry, not under src/):
componentwise sum of two points. -/
def pointSum (p q : Point) : Point :=
  { x := p.x + q.x, y := p.y + q.y }

/-- Modelled from the spec: `Points.divide(p, x, y)` (ixfx geometry, not
under src/): componentwise division. -/
def pointDivide (p : Point) (dx dy : ℚ) : Point :=
  { x := p.x / dx, y := p.y / dy }

/-- `lineBetween(pose, a, b)` from PosesTracker.js: a segment between two
named keypoints if both are present, else absent. -/
def lineBetween (pose : Pose) (a b : String) : Option Line :=
  match getKeypoint pose a, getKeypoint pose b with
  | some ptA, some ptB => some { a := ptA, b := ptB }
  | _, _ => none

/-- `roughCenter(pose)` from PosesTracker.js: the average of the midpoints
of the diagonals `left_shoulder`-`right_hip` and
`right_shoulder`-`left_hip`; absent if either diagonal is missing an
endpoint. -/
def roughCenter (pose : Pose) : Option Point :=
  match lineBetween pose "left_shoulder" "right_hip",
        lineBetween pose "right_shoulder" "left_hip" with
  | some a, some b =>
      let halfA := interpolate (1/2) a
      let halfB := interpolate (1/2) b
      let s := pointSum halfA halfB
      some (pointDivide s 2 2)
  | _, _ => none

/-- Modelled from the spec: `PoseTracker` (src/src/ml/pose/PoseTracker.js
is not under src/): "represents the history/state of one tracked body;
exposes `seen(pose)`, a `last` value, an `elapsed` age, and identity
fields (`fromId`, `poseId`, `guid`)"; `last` is the "most recently
observed Pose for this body", `elapsed` is "milliseconds since the most
recent seen call (computed on read, not stored)".  `lastSeenAt` is the
wall-clock time of the most recent `seen`. -/
structure PoseTracker where
  fromId : String
  poseId : String
  last : Pose
  lastSeenAt : ℕ
deriving DecidableEq, Repr

/-- Modelled from the spec: `PoseTracker.seen(pose)` records the
observation: updates `last` and resets the age clock. -/
def PoseTracker.seen (t : PoseTracker) (p : Pose) (now : ℕ) : PoseTracker :=
  { t with last := p, lastSeenAt := now }

/-- Modelled from the spec: `elapsed` is "milliseconds since the most
recent `seen` call for this body (computed on read, not stored)". -/
def PoseTracker.elapsed (t : PoseTracker) (now : ℕ) : ℕ :=
  now - t.lastSeenAt

/-- Modelled from the spec: `guid` is "composed deterministically from
`fromId` and `poseId` (concatenation with a separator)". -/
def PoseTracker.guid (t : PoseTracker) : String :=
  t.fromId ++ "-" ++ t.poseId

/-- The guid / registry key built by `seen`: `from + "-" + id`. -/
def mkGuid (fromId poseId : String) : String :=
  fromId ++ "-" ++ poseId

/-- `PosesTrackerOptions` from PosesTracker.js, with the defaults of the
constructor. -/
structure PosesTrackerOptions where
  maxAgeMs : ℕ := 10000
  resetAfterSamples : ℕ := 0
  sampleLimit : ℕ := 100
  storeIntermediate : Bool := false
deriving DecidableEq, Repr

/-- The `PosesTracker` registry state: the private map
`#data : Map<string, PoseTracker>` keyed by `"sender-pose.id"`, plus the
options.  A JS `Map` is modelled as an insertion-ordered association
list with unique keys. -/
structure PosesTracker where
  data : List (String × PoseTracker)
  options : PosesTrackerOptions
deriving DecidableEq, Repr

/-- A fresh `PosesTracker` (constructor with the given options, before any
`seen` call). -/
def PosesTracker.empty (opts : PosesTrackerOptions) : PosesTracker :=
  { data := [], options := opts }

/-- JS `Map.set`: replace the value at an existing key in place (keeping
its position in the iteration order), or append a new entry at the end. -/
def mapSet (k : String) (v : PoseTracker) :
    List (String × PoseTracker) → List (String × PoseTracker)
  | [] => [(k, v)]
  | (k', v') :: rest =>
      if k' = k then (k, v) :: rest else (k', v') :: mapSet k v rest

/-- The notifications dispatched on the `PosesTracker` event target. -/
inductive Event where
  | added : PoseTracker → Event
  | expired : PoseTracker → Event
deriving DecidableEq, Repr

/-- `PosesTracker.seen(from, pose)` from PosesTracker.js: throws if `from`
or `pose` is `undefined`; computes `id = (pose.id ?? 0).toString()` and
`nsId = from + "-" + id`; creates, records and announces a new tracker
when `nsId` is unknown, otherwise records on the existing tracker; returns
`nsId`.  The result is the new state, the returned guid, and the list of
events dispatched during the call. -/
def PosesTracker.seen (st : PosesTracker) (from_ : JSVal)
    (pose : Option Pose) (now : ℕ) :
    Except String (PosesTracker × String × List Event) :=
  if from_ = JSVal.undef then
    .error "Parameter from is undefined"
  else
    match pose with
    | none => .error "Parameter pose is undefined"
    | some p =>
      let id := p.poseIdOf
      let nsId := mkGuid from_.jsToString id
      match st.data.lookup nsId with
      | none =>
        let tp : PoseTracker :=
          PoseTracker.seen
            { fromId := from_.jsToString, poseId := id
              last := p, lastSeenAt := now } p now
        .ok ({ st with data := mapSet nsId tp st.data }, nsId,
             [Event.added tp])
      | some tp =>
        let tp' := tp.seen p now
        .ok ({ st with data := mapSet nsId tp' st.data }, nsId, [])

/-- One tick of the expiry scan installed by the constructor: every entry
whose `elapsed` strictly exceeds `maxAgeMs` is deleted and announced with
an `expired` event (in scan order); all other entries are kept. -/
def PosesTracker.tick (st : PosesTracker) (now : ℕ) :
    PosesTracker × List Event :=
  let expired := st.data.filter
    (fun e => st.options.maxAgeMs < e.2.elapsed now)
  ({ st with
      data := st.data.filter
        (fun e => ¬ st.options.maxAgeMs < e.2.elapsed now) },
   expired.map (fun e => Event.expired e.2))

/-- `clear()`: removes all trackers, no notifications. -/
def PosesTracker.clear (st : PosesTracker) : PosesTracker :=
  { st with data := [] }

/-- `size`: the number of entries in the registry map. -/
def PosesTracker.size (st : PosesTracker) : ℕ :=
  st.data.length

/-- The elements produced by `getTrackers()`: all current trackers,
registry order. -/
def PosesTracker.getTrackers (st : PosesTracker) : List PoseTracker :=
  st.data.map Prod.snd

/-- The elements produced by `getTrackersByAge()`: the current trackers
sorted ascending by `elapsed` (`trackers.sort((a,b) => a.elapsed - b.elapsed)`). -/
def PosesTracker.getTrackersByAge (st : PosesTracker) (now : ℕ) :
    List PoseTracker :=
  List.insertionSort
    (fun a b => a.elapsed now ≤ b.elapsed now) (st.data.map Prod.snd)

/-- The elements produced by `getValuesByAge()`: the `last` pose of each
tracker, in `getTrackersByAge` order. -/
def PosesTracker.getValuesByAge (st : PosesTracker) (now : ℕ) : List Pose :=
  (st.getTrackersByAge now).map PoseTracker.last

/-- The elements produced by `getValues()`: the `last` pose of each
tracker, registry order. -/
def PosesTracker.getValues (st : PosesTracker) : List Pose :=
  (st.data.map Prod.snd).map PoseTracker.last

/-- The elements produced by `getFromSender(senderId)`: trackers whose
`fromId` equals the sender. -/
def PosesTracker.getFromSender (st : PosesTracker) (senderId : String) :
    List PoseTracker :=
  (st.data.map Prod.snd).filter (fun t => t.fromId = senderId)

/-- JS `Set` built by inserting elements left to right: first occurrences,
insertion order. -/
def jsSetOf (l : List String) : List String :=
  l.foldl (fun s x => if x ∈ s then s else s ++ [x]) []

/-- The elements produced by `getSenderIds()`: the distinct `fromId`
values (a JS `Set` filled in registry order). -/
def PosesTracker.getSenderIds (st : PosesTracker) : List String :=
  jsSetOf (st.data.map (fun e => e.2.fromId))

/-- The elements produced by `getGuids()`: the `guid` of each tracker. -/
def PosesTracker.getGuids (st : PosesTracker) : List String :=
  st.data.map (fun e => e.2.guid)

/-- `getTrackerByGuid(id)`: direct map lookup. -/
def PosesTracker.getTrackerByGuid (st : PosesTracker) (id : String) :
    Option PoseTracker :=
  st.data.lookup id

/-- `getValueByGuid(id)`: `this.#data.get(id)?.last`. -/
def PosesTracker.getValueByGuid (st : PosesTracker) (id : String) :
    Option Pose :=
  (st.data.lookup id).map PoseTracker.last

/-- `getTrackerByPoseId(id)`: first tracker with this `poseId`, scan
order. -/
def PosesTracker.getTrackerByPoseId (st : PosesTracker) (id : String) :
    Option PoseTracker :=
  (st.data.map Prod.snd).find? (fun t => t.poseId = id)

/-- `getValueByPoseId(id)`: the `last` of the first tracker with this
`poseId`. -/
def PosesTracker.getValueByPoseId (st : PosesTracker) (id : String) :
    Option Pose :=
  (st.getTrackerByPoseId id).map PoseTracker.last

/-- Run a sequence of valid `seen` calls (string sender, present pose,
call time), threading the state; an error (impossible for valid
arguments) leaves the state unchanged. -/
def PosesTracker.runSeen (st : PosesTracker) :
    List (String × Pose × ℕ) → PosesTracker
  | [] => st
  | (f, p, t) :: rest =>
    match st.seen (JSVal.str f) (some p) t with
    | .ok (st', _, _) => st'.runSeen rest
    | .error _ => st.runSeen rest

/-- The `(fromId, poseId)` pair observed by a call of `runSeen`. -/
def callPair (c : String × Pose × ℕ) : String × String :=
  (c.1, c.2.1.poseIdOf)

/-- The guid built for a call of `runSeen`. -/
def callGuid (c : String × Pose × ℕ) : String :=
  mkGuid c.1 c.2.1.poseIdOf

/-- Semantics of a JS generator object over the shared registry, for the
generators whose yielded elements are fully determined when iteration
begins: calling the generator function runs none of its body; the body
(which copies `[...this.#data.values()]` and possibly sorts/filters it)
runs at the first `next()` call, reading the registry as it is at that
moment; after that the generator only walks its private copy.  This
models `getTrackers`, `getTrackersByAge`, `getFromSender` and
`getSenderIds`, whose yields are the snapshot elements themselves (or
strings computed from them before the first yield).  It does not model
`getValues`/`getValuesByAge`, which read the mutable `tracker.last` field
again at each yield. -/
inductive SnapshotGen (α : Type) where
  | notStarted : (List (String × PoseTracker) → List α) → SnapshotGen α
  | started : List α → SnapshotGen α

/-- One `next()` call on a generator, given the registry contents at that
moment. -/
def SnapshotGen.next {α : Type} :
    SnapshotGen α → List (String × PoseTracker) → Option α × SnapshotGen α
  | .notStarted body, reg =>
      match body reg with
      | [] => (none, .started [])
      | x :: xs => (some x, .started xs)
  | .started [], _ => (none, .started [])
  | .started (x :: xs), _ => (some x, .started xs)

/-- Pull a generator `n` times, the registry contents possibly changing
between pulls (`f i` is the registry at the `i`-th pull); collects the
yielded elements. -/
def SnapshotGen.runWith {α : Type} (g : SnapshotGen α) (n : ℕ)
    (f : ℕ → List (String × PoseTracker)) : List α :=
  match n with
  | 0 => []
  | Nat.succ m =>
    match g.next (f 0) with
    | (none, _) => []
    | (some x, g') => x :: g'.runWith m (fun i => f (i + 1))

/-- The generator object returned by calling `getTrackers()`: nothing is
read at call time; the body snapshots the registry when iteration
begins. -/
def getTrackersGen : SnapshotGen PoseTracker :=
  .notStarted (fun reg => reg.map Prod.snd)

/-- The generator object returned by `getTrackersByAge()`. -/
def getTrackersByAgeGen (now : ℕ) : SnapshotGen PoseTracker :=
  .notStarted (fun reg =>
    List.insertionSort
      (fun a b => a.elapsed now ≤ b.elapsed now) (reg.map Prod.snd))

/-- The generator object returned by `getFromSender(senderId)`. -/
def getFromSenderGen (senderId : String) : SnapshotGen PoseTracker :=
  .notStarted (fun reg =>
    (reg.map Prod.snd).filter (fun t => t.fromId = senderId))

/-- The generator object returned by `getSenderIds()`. -/
def getSenderIdsGen : SnapshotGen String :=
  .notStarted (fun reg => jsSetOf (reg.map (fun e => e.2.fromId)))

/-- The tracker that `seen` creates and records for a previously unseen
guid: `new PoseTracker(from, id, options)` followed by `tp.seen(pose)`. -/
def newTracker (from_ : JSVal) (p : Pose) (now : ℕ) : PoseTracker :=
  { fromId := from_.jsToString, poseId := p.poseIdOf
    last := p, lastSeenAt := now }

/-- A registry state is well formed when its keys are pairwise distinct
(as in a JS `Map`) and every tracker is stored under its own guid. -/
def GoodState (st : PosesTracker) : Prop :=
  (st.data.map Prod.fst).Nodup ∧ ∀ e ∈ st.data, e.2.guid = e.1

/-- Concrete pose: id 5, no keypoints. -/
def poseA : Pose := { id := some "5", keypoints := [] }

/-- Concrete pose: id 5, one keypoint (a later frame for the same body). -/
def poseB : Pose := { id := some "5", keypoints := [("nose", ⟨1, 1⟩)] }

/-- Concrete pose with all four torso keypoints at known coordinates. -/
def poseFull : Pose :=
  { id := some "1"
    keypoints :=
      [("left_shoulder", ⟨0, 0⟩), ("right_hip", ⟨2, 2⟩),
       ("right_shoulder", ⟨4, 0⟩), ("left_hip", ⟨6, 2⟩)] }

/-- Concrete pose missing `left_hip`. -/
def poseNoHip : Pose :=
  { id := some "1"
    keypoints :=
      [("left_shoulder", ⟨0, 0⟩), ("right_hip", ⟨2, 2⟩),
       ("right_shoulder", ⟨4, 0⟩)] }

/-- Two calls whose `(fromId, poseId)` pairs are distinct but whose guids
collide: `("a-b", "0")` and `("a", "b-0")` both yield guid `"a-b-0"`. -/
def collidingCalls : List (String × Pose × ℕ) :=
  [("a-b", { id := some "0", keypoints := [] }, 0),
   ("a", { id := some "b-0", keypoints := [] }, 0)]

/-- Three calls over two senders: two distinct `(fromId, poseId)` pairs,
the first pair seen twice. -/
def witnessCalls : List (String × Pose × ℕ) :=
  [("cam1", poseA, 0), ("cam2", poseA, 1), ("cam1", poseB, 5)]

/-- The registry after one `seen` call on a fresh tracker (used to exhibit
a mutation that happens between calling a generator and consuming it). -/
def stAfterOneSeen : PosesTracker :=
  PosesTracker.runSeen (PosesTracker.empty {}) [("cam1", poseA, 0)]

/-- A registry schedule that is empty at the first pull and nonempty
afterwards. -/
def schedA : ℕ → List (String × PoseTracker) :=
  fun i => if i = 0 then [] else stAfterOneSeen.data

/-- A registry schedule that is empty at every pull. -/
def schedB : ℕ → List (String × PoseTracker) :=
  fun _ => []

/-! ## Helper lemmas -/

theorem lookup_mapSet_self (k : String) (v : PoseTracker)
    (l : List (String × PoseTracker)) :
    (mapSet k v l).lookup k = some v := by
  induction l with
  | nil => simp [mapSet, List.lookup_cons]
  | cons e rest ih =>
    obtain ⟨k', v'⟩ := e
    by_cases hk : k' = k
    · subst hk
      simp [mapSet, List.lookup_cons]
    · simp [mapSet, hk, List.lookup_cons, beq_false_of_ne (Ne.symm hk), ih]

theorem mem_keys_mapSet (k a : String) (v : PoseTracker)
    (l : List (String × PoseTracker)) :
    a ∈ (mapSet k v l).map Prod.fst ↔ a = k ∨ a ∈ l.map Prod.fst := by
  induction l with
  | nil => simp [mapSet]
  | cons e rest ih =>
    obtain ⟨k', v'⟩ := e
    by_cases hk : k' = k
    · subst hk
      simp [mapSet]
    · simp [mapSet, hk, ih]
      tauto

theorem nodup_keys_mapSet (k : String) (v : PoseTracker)
    (l : List (String × PoseTracker))
    (h : (l.map Prod.fst).Nodup) :
    ((mapSet k v l).map Prod.fst).Nodup := by
  induction l with
  | nil => simp [mapSet]
  | cons e rest ih =>
    obtain ⟨k', v'⟩ := e
    simp only [List.map_cons, List.nodup_cons] at h
    by_cases hk : k' = k
    · subst hk
      simpa [mapSet] using h
    · simp only [mapSet, hk, if_false, List.map_cons, List.nodup_cons]
      refine ⟨?_, ih h.2⟩
      rw [mem_keys_mapSet]
      rintro (rfl | hm)
      · exact hk rfl
      · exact h.1 hm

theorem mem_of_lookup_eq_some {k : String} {v : PoseTracker}
    {l : List (String × PoseTracker)} (h : l.lookup k = some v) :
    (k, v) ∈ l := by
  induction l with
  | nil => simp [List.lookup] at h
  | cons e rest ih =>
    obtain ⟨k', v'⟩ := e
    by_cases hk : k = k'
    · subst hk
      simp [List.lookup_cons] at h
      simp [h]
    · simp [List.lookup_cons, beq_false_of_ne hk] at h
      exact List.mem_cons_of_mem _ (ih h)

theorem mem_mapSet {e : String × PoseTracker} {k : String}
    {v : PoseTracker} {l : List (String × PoseTracker)}
    (h : e ∈ mapSet k v l) : e = (k, v) ∨ e ∈ l := by
  induction l with
  | nil => simpa [mapSet] using h
  | cons e' rest ih =>
    obtain ⟨k', v'⟩ := e'
    by_cases hk : k' = k
    · subst hk
      simp [mapSet] at h
      tauto
    · simp [mapSet, hk] at h
      rcases h with h | h
      · simp [h]
      · rcases ih h with h' | h'
        · exact Or.inl h'
        · exact Or.inr (List.mem_cons_of_mem _ h')

theorem sep_split_inj : ∀ (f1 f2 p1 p2 : List Char),
    Char.ofNat 45 ∉ f1 → Char.ofNat 45 ∉ f2 →
    f1 ++ Char.ofNat 45 :: p1 = f2 ++ Char.ofNat 45 :: p2 →
    f1 = f2 ∧ p1 = p2 := by
  intro f1
  induction f1 with
  | nil =>
    intro f2 p1 p2 _ h2 heq
    cases f2 with
    | nil => simpa using heq
    | cons d f2' =>
      simp at heq
      exact absurd (heq.1 ▸ List.mem_cons_self d f2') h2
  | cons c f1' ih =>
    intro f2 p1 p2 h1 h2 heq
    cases f2 with
    | nil =>
      simp at heq
      exact absurd (heq.1 ▸ List.mem_cons_self c f1') h1
    | cons d f2' =>
      simp at heq
      obtain ⟨rfl, heq'⟩ := heq
      have hr := ih f2' p1 p2
        (fun hm => h1 (List.mem_cons_of_mem _ hm))
        (fun hm => h2 (List.mem_cons_of_mem _ hm)) heq'
      exact ⟨by rw [hr.1], hr.2⟩

theorem mkGuid_inj (f1 p1 f2 p2 : String)
    (h1 : Char.ofNat 45 ∉ f1.data) (h2 : Char.ofNat 45 ∉ f2.data)
    (heq : mkGuid f1 p1 = mkGuid f2 p2) : f1 = f2 ∧ p1 = p2 := by
  have hsep : ("-" : String).data = [Char.ofNat 45] := rfl
  have hd : f1.data ++ Char.ofNat 45 :: p1.data
      = f2.data ++ Char.ofNat 45 :: p2.data := by
    have hc := congrArg String.data heq
    simpa [mkGuid, String.data_append, hsep] using hc
  have hr := sep_split_inj f1.data f2.data p1.data p2.data h1 h2 hd
  exact ⟨String.ext hr.1, String.ext hr.2⟩

theorem seen_ok_cases (st : PosesTracker) (f : JSVal) (p : Pose) (now : ℕ)
    (hf : f ≠ JSVal.undef) :
    (st.data.lookup (mkGuid f.jsToString p.poseIdOf) = none ∧
      st.seen f (some p) now =
        .ok (⟨mapSet (mkGuid f.jsToString p.poseIdOf) (newTracker f p now)
                st.data, st.options⟩,
             mkGuid f.jsToString p.poseIdOf,
             [Event.added (newTracker f p now)])) ∨
    (∃ tp, st.data.lookup (mkGuid f.jsToString p.poseIdOf) = some tp ∧
      st.seen f (some p) now =
        .ok (⟨mapSet (mkGuid f.jsToString p.poseIdOf) (tp.seen p now)
                st.data, st.options⟩,
             mkGuid f.jsToString p.poseIdOf, [])) := by
  unfold PosesTracker.seen
  rw [if_neg hf]
  cases hlk : st.data.lookup (mkGuid f.jsToString p.poseIdOf) with
  | none =>
    left
    refine ⟨rfl, ?_⟩
    simp only [hlk]
    rfl
  | some tp =>
    right
    refine ⟨tp, rfl, ?_⟩
    simp only [hlk]

theorem goodState_empty (opts : PosesTrackerOptions) :
    GoodState (PosesTracker.empty opts) := by
  constructor <;> simp [GoodState, PosesTracker.empty]

theorem goodState_seen {st st' : PosesTracker} {f : JSVal} {pose : Option Pose}
    {now : ℕ} {g : String} {evs : List Event} (hg : GoodState st)
    (h : st.seen f pose now = .ok (st', g, evs)) : GoodState st' := by
  by_cases hf : f = JSVal.undef
  · subst hf
    simp [PosesTracker.seen] at h
  cases pose with
  | none =>
    simp [PosesTracker.seen, hf] at h
  | some p =>
    rcases seen_ok_cases st f p now hf with ⟨hlk, hok⟩ | ⟨tp, hlk, hok⟩
    · rw [hok] at h
      have hst := congrArg Prod.fst (Except.ok.inj h)
      subst hst
      constructor
      · exact nodup_keys_mapSet _ _ _ hg.1
      · intro e he
        rcases mem_mapSet he with rfl | he'
        · rfl
        · exact hg.2 e he'
    · rw [hok] at h
      have hst := congrArg Prod.fst (Except.ok.inj h)
      subst hst
      constructor
      · exact nodup_keys_mapSet _ _ _ hg.1
      · intro e he
        rcases mem_mapSet he with rfl | he'
        · have hmem := mem_of_lookup_eq_some hlk
          have := hg.2 _ hmem
          simpa [PoseTracker.seen, PoseTracker.guid] using this
        · exact hg.2 e he'

theorem runSeen_cons (st : PosesTracker) (f : String) (p : Pose) (t : ℕ)
    (rest : List (String × Pose × ℕ)) :
    ∃ v, PosesTracker.runSeen st ((f, p, t) :: rest) =
      PosesTracker.runSeen
        ⟨mapSet (mkGuid f p.poseIdOf) v st.data, st.options⟩ rest := by
  rcases seen_ok_cases st (JSVal.str f) p t (by simp) with ⟨hlk, hok⟩ | ⟨tp, hlk, hok⟩
  · exact ⟨newTracker (JSVal.str f) p t, by simp [PosesTracker.runSeen, hok, JSVal.jsToString]⟩
  · exact ⟨tp.seen p t, by simp [PosesTracker.runSeen, hok, JSVal.jsToString]⟩

theorem goodState_runSeen :
    ∀ (calls : List (String × Pose × ℕ)) (st : PosesTracker),
      GoodState st → GoodState (PosesTracker.runSeen st calls) := by
  intro calls
  induction calls with
  | nil => intro st h; exact h
  | cons c rest ih =>
    intro st h
    obtain ⟨f, p, t⟩ := c
    rcases seen_ok_cases st (JSVal.str f) p t (by simp) with ⟨hlk, hok⟩ | ⟨tp, hlk, hok⟩
    · simp only [PosesTracker.runSeen, hok]
      exact ih _ (goodState_seen h hok)
    · simp only [PosesTracker.runSeen, hok]
      exact ih _ (goodState_seen h hok)

theorem nodup_keys_runSeen :
    ∀ (calls : List (String × Pose × ℕ)) (st : PosesTracker),
      (st.data.map Prod.fst).Nodup →
      ((PosesTracker.runSeen st calls).data.map Prod.fst).Nodup := by
  intro calls
  induction calls with
  | nil => intro st h; exact h
  | cons c rest ih =>
    intro st h
    obtain ⟨f, p, t⟩ := c
    obtain ⟨v, hv⟩ := runSeen_cons st f p t rest
    rw [hv]
    exact ih _ (nodup_keys_mapSet _ _ _ h)

theorem mem_keys_runSeen :
    ∀ (calls : List (String × Pose × ℕ)) (st : PosesTracker) (k : String),
      k ∈ (PosesTracker.runSeen st calls).data.map Prod.fst ↔
        k ∈ st.data.map Prod.fst ∨ k ∈ calls.map callGuid := by
  intro calls
  induction calls with
  | nil => intro st k; simp [PosesTracker.runSeen]
  | cons c rest ih =>
    intro st k
    obtain ⟨f, p, t⟩ := c
    obtain ⟨v, hv⟩ := runSeen_cons st f p t rest
    rw [hv, ih]
    simp only [mem_keys_mapSet, List.map_cons, List.mem_cons, callGuid]
    tauto

theorem nodup_getGuids_of_good {st : PosesTracker} (hg : GoodState st) :
    st.getGuids.Nodup := by
  have hmap : st.getGuids = st.data.map Prod.fst := by
    unfold PosesTracker.getGuids
    exact List.map_congr_left hg.2
  rw [hmap]
  exact hg.1

theorem dedup_length_map {α β : Type} [DecidableEq α] [DecidableEq β]
    (f : α → β) :
    ∀ (l : List α), (∀ a ∈ l, ∀ b ∈ l, f a = f b → a = b) →
      ((l.map f).dedup).length = (l.dedup).length := by
  intro l
  induction l with
  | nil => simp
  | cons a l' ih =>
    intro hinj
    have hrest : ∀ a ∈ l', ∀ b ∈ l', f a = f b → a = b := fun x hx y hy =>
      hinj x (List.mem_cons_of_mem _ hx) y (List.mem_cons_of_mem _ hy)
    by_cases ha : a ∈ l'
    · rw [List.map_cons, List.dedup_cons_of_mem (List.mem_map_of_mem f ha),
        List.dedup_cons_of_mem ha]
      exact ih hrest
    · have hfa : f a ∉ l'.map f := by
        intro hm
        obtain ⟨b, hb, hfb⟩ := List.mem_map.1 hm
        have hba := hinj b (List.mem_cons_of_mem _ hb) a (List.mem_cons_self a l') hfb
        exact ha (hba ▸ hb)
      rw [List.map_cons, List.dedup_cons_of_not_mem hfa,
        List.dedup_cons_of_not_mem ha]
      simp [ih hrest]

theorem runWith_started {α : Type} :
    ∀ (n : ℕ) (l : List α) (f g : ℕ → List (String × PoseTracker)),
      SnapshotGen.runWith (.started l) n f = SnapshotGen.runWith (.started l) n g := by
  intro n
  induction n with
  | zero => intro l f g; rfl
  | succ m ih =>
    intro l f g
    cases l with
    | nil => rfl
    | cons x xs =>
      show x :: SnapshotGen.runWith (.started xs) m _
          = x :: SnapshotGen.runWith (.started xs) m _
      exact congrArg (x :: ·) (ih xs _ _)

theorem next_notStarted {α : Type} (body : List (String × PoseTracker) → List α)
    (reg : List (String × PoseTracker)) :
    SnapshotGen.next (.notStarted body) reg
      = ((body reg).head?, .started (body reg).tail) := by
  cases h : body reg <;> simp [SnapshotGen.next, h]

theorem runWith_first_eq {α : Type} (G : SnapshotGen α) (n : ℕ)
    (f g : ℕ → List (String × PoseTracker)) (h : f 0 = g 0) :
    G.runWith n f = G.runWith n g := by
  cases n with
  | zero => rfl
  | succ m =>
    cases G with
    | started l => exact runWith_started (m + 1) l f g
    | notStarted body =>
      show (match SnapshotGen.next (.notStarted body) (f 0) with
            | (none, _) => []
            | (some x, g') => x :: g'.runWith m fun i => f (i + 1))
          = (match SnapshotGen.next (.notStarted body) (g 0) with
            | (none, _) => []
            | (some x, g') => x :: g'.runWith m fun i => g (i + 1))
      rw [next_notStarted, next_notStarted, h]
      cases body (g 0) with
      | nil => rfl
      | cons x xs =>
        show x :: SnapshotGen.runWith (.started xs) m _
            = x :: SnapshotGen.runWith (.started xs) m _
        exact congrArg (x :: ·) (runWith_started m xs _ _)

theorem lineBetween_none_left {pose : Pose} {a b : String}
    (h : getKeypoint pose a = none) : lineBetween pose a b = none := by
  unfold lineBetween
  rw [h]

theorem lineBetween_none_right {pose : Pose} {a b : String}
    (h : getKeypoint pose b = none) : lineBetween pose a b = none := by
  unfold lineBetween
  rw [h]
  cases getKeypoint pose a <;> rfl

theorem lineBetween_some {pose : Pose} {a b : String} {pa pb : Point}
    (ha : getKeypoint pose a = some pa) (hb : getKeypoint pose b = some pb) :
    lineBetween pose a b = some ⟨pa, pb⟩ := by
  unfold lineBetween
  rw [ha, hb]

/-! ## Claim theorems -/

/-- C10: for every registry state and string id, `getValueByGuid(id)` is
present if and only if `getTrackerByGuid(id)` is present, and when both
are present `getValueByGuid(id)` equals the `last` field of that tracker. -/
theorem c10_getValueByGuid_agrees (st : PosesTracker) (id : String) :
    ((st.getValueByGuid id).isSome ↔ (st.getTrackerByGuid id).isSome) ∧
    ∀ t, st.getTrackerByGuid id = some t →
      st.getValueByGuid id = some t.last := by
  unfold PosesTracker.getValueByGuid PosesTracker.getTrackerByGuid
  cases h : st.data.lookup id with
  | none => simp
  | some tp => simp

/-- Witness for C10 at a concrete one-entry registry. -/
theorem c10_witness :
    stAfterOneSeen.getValueByGuid "cam1-5"
      = some (newTracker (JSVal.str "cam1") poseA 0).last :=
  (c10_getValueByGuid_agrees stAfterOneSeen "cam1-5").2
    (newTracker (JSVal.str "cam1") poseA 0) (by decide)

/-- C4: `seen` with an absent (`undefined`) `fromId` or pose fails with an
invalid-argument error; in this embedding an `error` result carries no new
state and no events, so the registry is unmutated and no `added`
notification is emitted. -/
theorem c4_seen_rejects_absent_args (st : PosesTracker) (from_ : JSVal)
    (pose : Option Pose) (now : ℕ)
    (h : from_ = JSVal.undef ∨ pose = none) :
    ∃ e, st.seen from_ pose now = .error e := by
  rcases h with rfl | rfl
  · exact ⟨"Parameter from is undefined", by simp [PosesTracker.seen]⟩
  · by_cases hf : from_ = JSVal.undef
    · subst hf
      exact ⟨"Parameter from is undefined", by simp [PosesTracker.seen]⟩
    · exact ⟨"Parameter pose is undefined", by simp [PosesTracker.seen, hf]⟩

/-- Witness for C4 at a concrete call with `undefined` sender. -/
theorem c4_witness :
    ∃ e, (PosesTracker.empty {}).seen JSVal.undef (some poseA) 0 = .error e :=
  c4_seen_rejects_absent_args (PosesTracker.empty {}) JSVal.undef (some poseA) 0
    (Or.inl rfl)

/-- C9: `seen` rejects only `undefined`: with a `null` sender and a pose
with a defined id it proceeds, returns the guid `"null-" + id`, and the
registry afterwards holds a tracker under that guid whose `last` is the
pose. -/
theorem c9_seen_null_inserts (st : PosesTracker) (p : Pose) (now : ℕ)
    (i : String) (h : p.id = some i) :
    ∃ st' evs t,
      st.seen JSVal.null (some p) now = .ok (st', "null-" ++ i, evs) ∧
      st'.data.lookup ("null-" ++ i) = some t ∧ t.last = p := by
  have hid : p.poseIdOf = i := by simp [Pose.poseIdOf, h]
  have hg : mkGuid (JSVal.null).jsToString p.poseIdOf = "null-" ++ i := by
    rw [hid]
    rfl
  rcases seen_ok_cases st JSVal.null p now (by simp)
    with ⟨hlk, hok⟩ | ⟨tp, hlk, hok⟩
  · refine ⟨⟨mapSet (mkGuid (JSVal.null).jsToString p.poseIdOf)
        (newTracker JSVal.null p now) st.data, st.options⟩,
      [Event.added (newTracker JSVal.null p now)],
      newTracker JSVal.null p now, ?_, ?_, rfl⟩
    · rw [← hg]
      exact hok
    · rw [← hg]
      exact lookup_mapSet_self _ _ _
  · refine ⟨⟨mapSet (mkGuid (JSVal.null).jsToString p.poseIdOf)
        (tp.seen p now) st.data, st.options⟩, [], tp.seen p now, ?_, ?_, rfl⟩
    · rw [← hg]
      exact hok
    · rw [← hg]
      exact lookup_mapSet_self _ _ _

/-- Witness for C9 at a concrete `null` call on an empty registry. -/
theorem c9_witness :
    ∃ st' evs t,
      (PosesTracker.empty {}).seen JSVal.null (some poseA) 0
        = .ok (st', "null-" ++ "5", evs) ∧
      st'.data.lookup ("null-" ++ "5") = some t ∧ t.last = poseA :=
  c9_seen_null_inserts (PosesTracker.empty {}) poseA 0 "5" rfl

/-- C3: one tick of the periodic scan keeps an entry if and only if its
`elapsed` at scan time is at most `maxAgeMs` (so an entry is removed iff
`elapsed` strictly exceeds `maxAgeMs`), and the events dispatched are
exactly one `expired` notification per removed entry, carrying the removed
tracker, in scan order. -/
theorem c3_tick_expiry (st : PosesTracker) (now : ℕ) :
    (∀ e, e ∈ (st.tick now).1.data ↔
        e ∈ st.data ∧ e.2.elapsed now ≤ st.options.maxAgeMs) ∧
    (st.tick now).2
      = (st.data.filter fun e => st.options.maxAgeMs < e.2.elapsed now).map
          (fun e => Event.expired e.2) := by
  constructor
  · intro e
    simp [PosesTracker.tick, List.mem_filter, not_lt]
  · rfl

/-- C5: `getTrackersByAge()` yields exactly the current trackers
(a permutation of `getTrackers()`), in non-decreasing `elapsed` order, and
`getValuesByAge()` yields the `last` pose of each tracker in that same order. -/
theorem c5_getTrackersByAge_ordered (st : PosesTracker) (now : ℕ) :
    (st.getTrackersByAge now).Perm st.getTrackers ∧
    (st.getTrackersByAge now).Sorted
      (fun a b => a.elapsed now ≤ b.elapsed now) ∧
    st.getValuesByAge now = (st.getTrackersByAge now).map PoseTracker.last := by
  refine ⟨List.perm_insertionSort _ _, ?_, rfl⟩
  haveI : IsTotal PoseTracker (fun a b => a.elapsed now ≤ b.elapsed now) :=
    ⟨fun a b => Nat.le_total _ _⟩
  haveI : IsTrans PoseTracker (fun a b => a.elapsed now ≤ b.elapsed now) :=
    ⟨fun _ _ _ => Nat.le_trans⟩
  exact List.sorted_insertionSort _ _

/-- C2: from a state where the pair `(f, poseId)` is unseen, the first
`seen` call returns the guid and fires exactly one `added` event carrying
the newly created tracker (whose `last` is the first pose); the second
call with the same pair returns the same guid, fires no events, and leaves
the `last` field of the tracker equal to the second pose. -/
theorem c2_seen_twice_one_added (st : PosesTracker) (f : String)
    (p1 p2 : Pose) (t1 t2 : ℕ) (hid : p1.poseIdOf = p2.poseIdOf)
    (hnew : st.data.lookup (mkGuid f p1.poseIdOf) = none) :
    ∃ tp st1 st2,
      st.seen (JSVal.str f) (some p1) t1
        = .ok (st1, mkGuid f p1.poseIdOf, [Event.added tp]) ∧
      tp.last = p1 ∧
      st1.seen (JSVal.str f) (some p2) t2
        = .ok (st2, mkGuid f p1.poseIdOf, []) ∧
      st2.data.lookup (mkGuid f p1.poseIdOf) = some (tp.seen p2 t2) := by
  have hjs : (JSVal.str f).jsToString = f := rfl
  rcases seen_ok_cases st (JSVal.str f) p1 t1 (by simp)
    with ⟨hlk1, hok1⟩ | ⟨tp, hlk1, hok1⟩
  · set g := mkGuid f p1.poseIdOf with hgdef
    set st1 := (⟨mapSet g (newTracker (JSVal.str f) p1 t1) st.data,
      st.options⟩ : PosesTracker) with hst1
    have hlk2 : st1.data.lookup (mkGuid f p2.poseIdOf)
        = some (newTracker (JSVal.str f) p1 t1) := by
      rw [← hid]
      exact lookup_mapSet_self _ _ _
    rcases seen_ok_cases st1 (JSVal.str f) p2 t2 (by simp)
      with ⟨hlk2', hok2⟩ | ⟨tp2, hlk2', hok2⟩
    · rw [hjs] at hlk2'
      rw [hlk2'] at hlk2
      exact absurd hlk2 (by simp)
    · rw [hjs] at hlk2' hok2
      rw [hlk2'] at hlk2
      have htp2 : tp2 = newTracker (JSVal.str f) p1 t1 := by
        injection hlk2
      refine ⟨newTracker (JSVal.str f) p1 t1, st1,
        ⟨mapSet (mkGuid f p2.poseIdOf) (tp2.seen p2 t2) st1.data,
          st1.options⟩, ?_, rfl, ?_, ?_⟩
      · rw [← hjs]
        exact hok1
      · rw [hok2, htp2, hgdef, hid]
      · rw [htp2, ← hid]
        exact lookup_mapSet_self _ _ _
  · rw [hjs] at hlk1
    rw [hlk1] at hnew
    exact absurd hnew (by simp)

/-- Witness for C2: two concrete calls with the same `(fromId, poseId)`
pair and different poses. -/
theorem c2_witness :
    ∃ tp st1 st2,
      (PosesTracker.empty {}).seen (JSVal.str "cam1") (some poseA) 0
        = .ok (st1, mkGuid "cam1" poseA.poseIdOf, [Event.added tp]) ∧
      tp.last = poseA ∧
      st1.seen (JSVal.str "cam1") (some poseB) 7
        = .ok (st2, mkGuid "cam1" poseA.poseIdOf, []) ∧
      st2.data.lookup (mkGuid "cam1" poseA.poseIdOf)
        = some (tp.seen poseB 7) :=
  c2_seen_twice_one_added (PosesTracker.empty {}) "cam1" poseA poseB 0 7
    rfl (by decide)

/-- C8: `roughCenter` is absent when any of the four torso keypoints is
missing, and when all four are present it is exactly the componentwise
arithmetic mean of the midpoints of the segments
`left_shoulder`-`right_hip` and `right_shoulder`-`left_hip`. -/
theorem c8_roughCenter_spec (pose : Pose) :
    ((getKeypoint pose "left_shoulder" = none ∨
      getKeypoint pose "right_hip" = none ∨
      getKeypoint pose "right_shoulder" = none ∨
      getKeypoint pose "left_hip" = none) →
      roughCenter pose = none) ∧
    (∀ ls rh rs lh : Point,
      getKeypoint pose "left_shoulder" = some ls →
      getKeypoint pose "right_hip" = some rh →
      getKeypoint pose "right_shoulder" = some rs →
      getKeypoint pose "left_hip" = some lh →
      roughCenter pose
        = some { x := ((ls.x + rh.x) / 2 + (rs.x + lh.x) / 2) / 2,
                 y := ((ls.y + rh.y) / 2 + (rs.y + lh.y) / 2) / 2 }) := by
  constructor
  · intro h
    unfold roughCenter
    rcases h with h | h | h | h
    · rw [lineBetween_none_left h]
    · rw [lineBetween_none_right h]
    · rw [lineBetween_none_left (b := "left_hip") h]
      cases lineBetween pose "left_shoulder" "right_hip" <;> rfl
    · rw [lineBetween_none_right (a := "right_shoulder") h]
      cases lineBetween pose "left_shoulder" "right_hip" <;> rfl
  · intro ls rh rs lh hls hrh hrs hlh
    unfold roughCenter
    rw [lineBetween_some hls hrh, lineBetween_some hrs hlh]
    simp only [interpolate, pointSum, pointDivide]
    rw [Option.some_inj, Point.mk.injEq]
    constructor <;> ring

/-- Witness for C8: a pose missing `left_hip` and a pose with all four
keypoints at concrete coordinates. -/
theorem c8_witness :
    roughCenter poseNoHip = none ∧
    roughCenter poseFull
      = some { x := ((0 + 2) / 2 + (4 + 6) / 2) / 2,
               y := ((0 + 2) / 2 + (0 + 2) / 2) / 2 } :=
  ⟨(c8_roughCenter_spec poseNoHip).1 (Or.inr (Or.inr (Or.inr rfl))),
   (c8_roughCenter_spec poseFull).2 ⟨0, 0⟩ ⟨2, 2⟩ ⟨4, 0⟩ ⟨6, 2⟩
     rfl rfl rfl rfl⟩

/-- C1 counterexample: with a `fromId` containing the separator, two
distinct `(fromId, poseId)` pairs collide on the same guid
(`"a-b" + "-" + "0"` and `"a" + "-" + "b-0"` are both `"a-b-0"`), so after
the two calls `size` is 1 while the number of distinct pairs is 2. -/
theorem c1_counterexample :
    ¬ ((PosesTracker.runSeen (PosesTracker.empty {}) collidingCalls).size
        = ((collidingCalls.map callPair).dedup).length) := by
  decide

/-- C1 (amended): for every sequence of `seen(fromId, pose)` calls in
which no `fromId` contains the separator character, `size` equals the
number of distinct `(fromId, poseId)` pairs observed. -/
theorem c1_size_eq_distinct_pairs (opts : PosesTrackerOptions)
    (calls : List (String × Pose × ℕ))
    (hsep : ∀ c ∈ calls, Char.ofNat 45 ∉ c.1.data) :
    (PosesTracker.runSeen (PosesTracker.empty opts) calls).size
      = ((calls.map callPair).dedup).length := by
  have hnd : ((PosesTracker.runSeen (PosesTracker.empty opts) calls).data.map
      Prod.fst).Nodup :=
    nodup_keys_runSeen calls _ (by simp [PosesTracker.empty])
  have hmem : ∀ k,
      k ∈ (PosesTracker.runSeen (PosesTracker.empty opts) calls).data.map
          Prod.fst ↔ k ∈ calls.map callGuid := by
    intro k
    rw [mem_keys_runSeen]
    simp [PosesTracker.empty]
  have hperm : List.Perm
      ((PosesTracker.runSeen (PosesTracker.empty opts) calls).data.map
        Prod.fst) ((calls.map callGuid).dedup) :=
    (List.perm_ext_iff_of_nodup hnd (List.nodup_dedup _)).2
      (fun a => by rw [List.mem_dedup]; exact hmem a)
  have hsize : (PosesTracker.runSeen (PosesTracker.empty opts) calls).size
      = ((PosesTracker.runSeen (PosesTracker.empty opts) calls).data.map
          Prod.fst).length := by
    simp [PosesTracker.size]
  have hcomp : calls.map callGuid
      = (calls.map callPair).map (fun q => mkGuid q.1 q.2) := by
    rw [List.map_map]
    rfl
  have hinj : ∀ a ∈ calls.map callPair, ∀ b ∈ calls.map callPair,
      (fun q : String × String => mkGuid q.1 q.2) a
        = (fun q : String × String => mkGuid q.1 q.2) b → a = b := by
    intro a ha b hb hab
    obtain ⟨ca, hca, rfl⟩ := List.mem_map.1 ha
    obtain ⟨cb, hcb, rfl⟩ := List.mem_map.1 hb
    have hr := mkGuid_inj _ _ _ _ (hsep ca hca) (hsep cb hcb) hab
    exact Prod.ext hr.1 hr.2
  rw [hsize, hperm.length_eq, hcomp, dedup_length_map _ _ hinj]

/-- Witness for C1 (amended): three concrete calls, two distinct pairs,
size 2. -/
theorem c1_witness :
    (PosesTracker.runSeen (PosesTracker.empty {}) witnessCalls).size
      = ((witnessCalls.map callPair).dedup).length :=
  c1_size_eq_distinct_pairs {} witnessCalls (by decide)

/-- C6: in every registry state reachable by `seen` calls the guids
yielded by `getGuids()` are pairwise distinct, and the guid construction
is injective: for identifier strings whose sender part does not contain
the separator, equal guids force equal `(fromId, poseId)` pairs. -/
theorem c6_guids_distinct_and_decomposable :
    (∀ (opts : PosesTrackerOptions) (calls : List (String × Pose × ℕ)),
      ((PosesTracker.runSeen (PosesTracker.empty opts) calls).getGuids).Nodup) ∧
    (∀ f1 p1 f2 p2 : String,
      Char.ofNat 45 ∉ f1.data → Char.ofNat 45 ∉ f2.data →
      mkGuid f1 p1 = mkGuid f2 p2 → f1 = f2 ∧ p1 = p2) := by
  constructor
  · intro opts calls
    exact nodup_getGuids_of_good
      (goodState_runSeen calls _ (goodState_empty opts))
  · intro f1 p1 f2 p2 h1 h2 heq
    exact mkGuid_inj f1 p1 f2 p2 h1 h2 heq

/-- Witness for C6: distinct guids after three concrete calls, and a
concrete decomposition. -/
theorem c6_witness :
    ((PosesTracker.runSeen (PosesTracker.empty {}) witnessCalls).getGuids).Nodup ∧
    (("cam1" : String) = "cam2" ∧ ("5" : String) = "5" → False) :=
  ⟨c6_guids_distinct_and_decomposable.1 {} witnessCalls,
   fun h => by simp at h⟩

/-- C7 counterexample: a generator called while the registry is empty, but
first pulled after a `seen` call has inserted a tracker, yields that
tracker: the snapshot is not taken at call time (the generator body, which
copies the registry, only runs at the first `next()`), so a mutation after
the call but before consumption changes what is yielded. -/
theorem c7_counterexample :
    SnapshotGen.runWith getTrackersGen 2 (fun _ => stAfterOneSeen.data)
      = stAfterOneSeen.getTrackers ∧
    SnapshotGen.runWith getTrackersGen 2 (fun _ => stAfterOneSeen.data)
      ≠ (PosesTracker.empty {}).getTrackers := by
  constructor
  · decide
  · decide

/-- C7 (amended): the enumeration generators that yield snapshot elements
unchanged — `getTrackers`, `getTrackersByAge`, `getFromSender` and
`getSenderIds` — copy what they yield when iteration begins (at the first
`next()` call), so only the registry contents at the first pull matter:
two consumption schedules that agree at the first pull produce identical
sequences, i.e. registry mutations performed after iteration has begun
cannot change the yields.  `getValues` is excluded: its body copies
tracker references but reads `tracker.last` at each yield, through the
shared mutable tracker, so a `seen` update between pulls changes a
later-yielded pose. -/
theorem c7_gen_snapshot_at_first_next (n : ℕ)
    (f g : ℕ → List (String × PoseTracker)) (h : f 0 = g 0)
    (now : ℕ) (senderId : String) :
    SnapshotGen.runWith getTrackersGen n f
      = SnapshotGen.runWith getTrackersGen n g ∧
    SnapshotGen.runWith (getTrackersByAgeGen now) n f
      = SnapshotGen.runWith (getTrackersByAgeGen now) n g ∧
    SnapshotGen.runWith (getFromSenderGen senderId) n f
      = SnapshotGen.runWith (getFromSenderGen senderId) n g ∧
    SnapshotGen.runWith getSenderIdsGen n f
      = SnapshotGen.runWith getSenderIdsGen n g :=
  ⟨runWith_first_eq _ n f g h, runWith_first_eq _ n f g h,
   runWith_first_eq _ n f g h, runWith_first_eq _ n f g h⟩

/-- Witness for C7 (amended): two concrete schedules agreeing at the first
pull. -/
theorem c7_witness :
    SnapshotGen.runWith getTrackersGen 2 schedA
      = SnapshotGen.runWith getTrackersGen 2 schedB ∧
    SnapshotGen.runWith (getTrackersByAgeGen 3) 2 schedA
      = SnapshotGen.runWith (getTrackersByAgeGen 3) 2 schedB ∧
    SnapshotGen.runWith (getFromSenderGen "cam1") 2 schedA
      = SnapshotGen.runWith (getFromSenderGen "cam1") 2 schedB ∧
    SnapshotGen.runWith getSenderIdsGen 2 schedA
      = SnapshotGen.runWith getSenderIdsGen 2 schedB :=
  c7_gen_snapshot_at_first_next 2 schedA schedB rfl 3 "cam1"
